import Mathlib

/-!
Shallow embedding of the OAuth 2.1 client core of the mcp-inspector
repository (server/src/oauth: authFlow, discovery, dcr, tokenManager),
together with theorems checking the documented behaviour of the
pending-state store, the token manager, authorization-server metadata
discovery, dynamic client registration and authorization-URL
construction.

Modelling conventions:
- JavaScript `Map`s are association lists in insertion order with unique
  keys (`mapGet` / `mapSet` / `mapDelete` mirror `get` / `set` / `delete`).
- `Date.now()` becomes an explicit `now : Nat` argument in milliseconds.
- Network responses (fetch status and parsed JSON body) are explicit
  arguments of the functions that consume them; a field of a JSON
  document is `Option`-valued, and a JavaScript falsiness test on a
  string field is `= none` or `= some ""`.
- AES-GCM encryption of secrets at rest is an abstract pair of string
  transformations (`Crypto`); with no configured key the source uses the
  identity, modelled by `idCrypto`.
-/

namespace McpOAuth

/-- Lookup in a JavaScript `Map` modelled as an association list. -/
def mapGet {V : Type} (m : List (String × V)) (k : String) : Option V :=
  match m with
  | [] => none
  | (k', v) :: rest => if k' = k then some v else mapGet rest k

/-- `Map.prototype.set`: replaces in place if the key exists (keeping its
position, as JavaScript `Map` does), else appends. -/
def mapSet {V : Type} (m : List (String × V)) (k : String) (v : V) : List (String × V) :=
  match m with
  | [] => [(k, v)]
  | (k', v') :: rest => if k' = k then (k, v) :: rest else (k', v') :: mapSet rest k v

/-- `Map.prototype.delete`. -/
def mapDelete {V : Type} (m : List (String × V)) (k : String) : List (String × V) :=
  match m with
  | [] => []
  | (k', v') :: rest => if k' = k then mapDelete rest k else (k', v') :: mapDelete rest k

/-- Abstract symmetric encryption of secrets at rest (`encrypt` /
`decrypt` in dcr.ts and tokenManager.ts). -/
structure Crypto where
  enc : String → String
  dec : String → String

/-- The source's behaviour when no encryption key is configured:
`encrypt` and `decrypt` both return their input unchanged. -/
def idCrypto : Crypto := ⟨fun s => s, fun s => s⟩

/-- JavaScript `String.prototype.startsWith`, as used by the fallback
scan of `getRegisteredClient`. -/
def strStartsWith (s p : String) : Bool :=
  List.isPrefixOf p.data s.data

/-- `issuer.replace(/\/$/, '')`: drop one trailing slash if present. -/
def trimTrailingSlash (s : String) : String :=
  if s.data.getLast? = some '/' then ⟨s.data.dropLast⟩ else s

/-- `scopes.join(' ')`. -/
def joinSpace (l : List String) : String :=
  String.intercalate " " l

/-- JavaScript falsiness of an optional string field (`undefined` or
the empty string). -/
def falsyStr : Option String → Bool
  | none => true
  | some s => s = ""

/-- `x || d` for an optional string `x` and a string default `d`. -/
def jsOrStr (v : Option String) (d : String) : String :=
  match v with
  | some s => if s = "" then d else s
  | none => d

/-- Split a character list on a separator character, JavaScript
`String.prototype.split` style: the empty list yields one empty field,
and separators at the edges yield empty fields. -/
def splitOnChar (c : Char) : List Char → List (List Char)
  | [] => [[]]
  | x :: xs =>
    if x = c then [] :: splitOnChar c xs
    else
      match splitOnChar c xs with
      | [] => [[x]]
      | h :: t => (x :: h) :: t

/-- JavaScript `s.split(' ')`, as used on the challenge scope string. -/
def jsSplitSpace (s : String) : List String :=
  (splitOnChar ' ' s.data).map (fun l => ⟨l⟩)

/-- `x || d` for two optional strings. -/
def jsOrOptStr (v : Option String) (d : Option String) : Option String :=
  match v with
  | some s => if s = "" then d else some s
  | none => d

/-- RFC 8414 Authorization Server Metadata after validation (the fields
the core reads; `issuer`, `authorization_endpoint` and `token_endpoint`
are known present once discovery has accepted the document). -/
structure AuthServerMetadata where
  issuer : String
  authorization_endpoint : String
  token_endpoint : String
  registration_endpoint : Option String
  scopes_supported : Option (List String)
  code_challenge_methods_supported : Option (List String)
  revocation_endpoint : Option String
deriving DecidableEq

/-- RFC 9728 Protected Resource Metadata (fields the core reads). -/
structure ProtectedResourceMetadata where
  resource : String
  authorization_servers : List String
  scopes_supported : Option (List String)
deriving DecidableEq

/-- A pending authorization attempt (`OAuthState` in types.ts). -/
structure OAuthState where
  state : String
  codeVerifier : String
  redirectUri : String
  resourceUri : String
  issuer : String
  createdAt : Nat
  scopes : Option (List String)
deriving DecidableEq

/-- Decrypted access/refresh token pair (`OAuthTokens` in types.ts). -/
structure OAuthTokens where
  accessToken : String
  refreshToken : Option String
  tokenType : String
  expiresAt : Nat
  scope : Option String
deriving DecidableEq

/-- An entry of the token store (`EncryptedTokens` in tokenManager.ts):
token strings are stored encrypted, plus the issuer recorded for later
refresh and revocation. -/
structure StoredTokens where
  accessToken : String
  refreshToken : Option String
  tokenType : String
  expiresAt : Nat
  scope : Option String
  issuer : String
deriving DecidableEq

/-- A cached OAuth client identity (`RegisteredClient` in types.ts);
`clientSecret` is held encrypted in the cache. -/
structure RegisteredClient where
  clientId : String
  clientSecret : Option String
  issuer : String
  resourceUri : String
  registeredAt : Nat
  clientSecretExpiresAt : Option Nat
deriving DecidableEq

/-- Parsed JSON body of a Dynamic Client Registration response (the
fields registerClient reads). -/
structure DCRResponseBody where
  client_id : Option String
  client_secret : Option String
  client_secret_expires_at : Option Nat
deriving DecidableEq

/-- HTTP response of the registration endpoint: status code and parsed
JSON body (`none` when the body is not parseable JSON). -/
structure DcrHttpResponse where
  status : Nat
  body : Option DCRResponseBody
deriving DecidableEq

/-- Parsed JSON body of a token endpoint response (the fields
refreshTokens and exchangeCodeForTokens read). -/
structure TokenResponseBody where
  access_token : Option String
  token_type : Option String
  expires_in : Option Nat
  refresh_token : Option String
  scope : Option String
deriving DecidableEq

/-- HTTP response of the token endpoint. -/
structure TokenHttpResponse where
  status : Nat
  body : Option TokenResponseBody
deriving DecidableEq

/-- An RFC 8414 / OIDC discovery document as fetched, before validation:
every field may be absent. -/
structure AsMetadataDoc where
  issuer : Option String
  authorization_endpoint : Option String
  token_endpoint : Option String
  registration_endpoint : Option String
  scopes_supported : Option (List String)
  code_challenge_methods_supported : Option (List String)
  revocation_endpoint : Option String
deriving DecidableEq

/-- Outcome of fetching one candidate well-known URL in
`discoverAuthServerMetadata`: a network / HTTP / JSON-parse failure, or
a parsed document. -/
inductive FetchResult
  | fail
  | success (m : AsMetadataDoc)
deriving DecidableEq

/-- Errors thrown by `handleAuthCallback` before the code exchange. -/
inductive CallbackError
  | invalidOrExpiredState
  | stateExpired
deriving DecidableEq

/-- Errors thrown by `refreshTokens`. -/
inductive RefreshError
  | noRefreshToken
  | refreshFailed
  | invalidJson
  | missingAccessToken
deriving DecidableEq

/-- Errors thrown by `registerClient`. -/
inductive DcrError
  | dcrUnsupported
  | dcrFailed
  | invalidJson
  | invalidDcrResponse
deriving DecidableEq

/-- Error thrown by `discoverAuthServerMetadata` when every candidate
URL fails. -/
inductive DiscoveryError
  | discoveryFailed
deriving DecidableEq

/-- `fetch` `Response.ok`: status in the 200–299 range. -/
def httpOk (status : Nat) : Bool :=
  decide (200 ≤ status ∧ status < 300)

/-- authFlow.ts: `const STATE_TTL_MS = 10 * 60 * 1000`. -/
def STATE_TTL_MS : Nat := 10 * 60 * 1000

/-- authFlow.ts `cleanupExpiredStates`: delete every pending state with
`now - createdAt > STATE_TTL_MS`. -/
def cleanupExpiredStates (now : Nat) (pending : List (String × OAuthState)) :
    List (String × OAuthState) :=
  pending.filter (fun kv => decide (now - kv.2.createdAt ≤ STATE_TTL_MS))

/-- The effect of `initiateAuthFlow` on the pending-state map: expired
states are swept, then the freshly generated state is stored under its
own `state` value (authFlow.ts lines 592-632). -/
def initiateAuthFlowPending (pending : List (String × OAuthState)) (now : Nat)
    (st : OAuthState) : List (String × OAuthState) :=
  mapSet (cleanupExpiredStates now pending) st.state st

/-- The state-handling phase of `handleAuthCallback` (authFlow.ts lines
662-676): look the state up (throwing the invalid-or-expired error if
absent), delete it unconditionally to enforce single use, then check the
10-minute TTL. `Except.ok st` means the function proceeds to the code
exchange with the state's stored verifier; the remainder of
`handleAuthCallback` never touches the pending-state map. -/
def handleAuthCallbackStatePhase (pending : List (String × OAuthState))
    (stateVal : String) (now : Nat) :
    Except CallbackError OAuthState × List (String × OAuthState) :=
  match mapGet pending stateVal with
  | none => (Except.error CallbackError.invalidOrExpiredState, pending)
  | some st =>
    let pending' := mapDelete pending stateVal
    if now - st.createdAt > STATE_TTL_MS then
      (Except.error CallbackError.stateExpired, pending')
    else
      (Except.ok st, pending')

/-- tokenManager.ts `getTokens`: decrypt the stored entry; a falsy
(absent or empty) stored refresh token comes back as `undefined`. -/
def getTokens (c : Crypto) (store : List (String × StoredTokens)) (uri : String) :
    Option OAuthTokens :=
  match mapGet store uri with
  | none => none
  | some e => some {
      accessToken := c.dec e.accessToken,
      refreshToken := match e.refreshToken with
        | some r => if r = "" then none else some (c.dec r)
        | none => none,
      tokenType := e.tokenType,
      expiresAt := e.expiresAt,
      scope := e.scope }

/-- tokenManager.ts `storeTokens`: encrypt and store; a falsy refresh
token is stored as `undefined`. -/
def storeTokens (c : Crypto) (store : List (String × StoredTokens)) (uri : String)
    (t : OAuthTokens) (issuer : String) : List (String × StoredTokens) :=
  mapSet store uri {
    accessToken := c.enc t.accessToken,
    refreshToken := match t.refreshToken with
      | some r => if r = "" then none else some (c.enc r)
      | none => none,
    tokenType := t.tokenType,
    expiresAt := t.expiresAt,
    scope := t.scope,
    issuer := issuer }

/-- tokenManager.ts `getTokenIssuer`: `encrypted?.issuer || null`. -/
def getTokenIssuer (store : List (String × StoredTokens)) (uri : String) :
    Option String :=
  match mapGet store uri with
  | none => none
  | some e => if e.issuer = "" then none else some e.issuer

/-- tokenManager.ts `removeTokens`. -/
def removeTokens (store : List (String × StoredTokens)) (uri : String) :
    List (String × StoredTokens) :=
  mapDelete store uri

/-- tokenManager.ts `hasValidTokens`: tokens exist and
`expiresAt > now + 30000` (30-second buffer). -/
def hasValidTokens (c : Crypto) (store : List (String × StoredTokens)) (uri : String)
    (now : Nat) : Bool :=
  match getTokens c store uri with
  | none => false
  | some t => decide (now + 30000 < t.expiresAt)

/-- tokenManager.ts `refreshTokens`, with the token-endpoint HTTP
response an explicit argument. Fails fast when no (truthy) refresh token
is stored; on a non-2xx response throws the refresh-failed error,
deleting the stored tokens first exactly when the status is 400 or 401;
on success stores the rebuilt token record (keeping the prior refresh
token and scope when the server omits them). -/
def refreshTokens (c : Crypto) (store : List (String × StoredTokens)) (uri : String)
    (resp : TokenHttpResponse) (now : Nat) :
    Except RefreshError OAuthTokens × List (String × StoredTokens) :=
  match getTokens c store uri with
  | none => (Except.error RefreshError.noRefreshToken, store)
  | some current =>
    match current.refreshToken with
    | none => (Except.error RefreshError.noRefreshToken, store)
    | some rt =>
      if rt = "" then (Except.error RefreshError.noRefreshToken, store)
      else if httpOk resp.status = false then
        if resp.status = 400 ∨ resp.status = 401 then
          (Except.error RefreshError.refreshFailed, removeTokens store uri)
        else
          (Except.error RefreshError.refreshFailed, store)
      else
        match resp.body with
        | none => (Except.error RefreshError.invalidJson, store)
        | some b =>
          if falsyStr b.access_token then
            (Except.error RefreshError.missingAccessToken, store)
          else
            let newTokens : OAuthTokens := {
              accessToken := b.access_token.getD "",
              tokenType := jsOrStr b.token_type "Bearer",
              expiresAt := match b.expires_in with
                | some e => if e = 0 then now + 3600 * 1000 else now + e * 1000
                | none => now + 3600 * 1000,
              refreshToken := jsOrOptStr b.refresh_token (some rt),
              scope := jsOrOptStr b.scope current.scope }
            match getTokenIssuer store uri with
            | some iss => (Except.ok newTokens, storeTokens c store uri newTokens iss)
            | none => (Except.ok newTokens, store)

/-- dcr.ts `getClientCacheKey`: `issuer|resourceUri|redirectUri`, or
`issuer|resourceUri` when the redirect URI is falsy. -/
def clientCacheKey (issuer resourceUri : String) (redirectUri : Option String) : String :=
  match redirectUri with
  | some u => if u = "" then issuer ++ "|" ++ resourceUri
              else issuer ++ "|" ++ resourceUri ++ "|" ++ u
  | none => issuer ++ "|" ++ resourceUri

/-- dcr.ts expiry test: `clientSecretExpiresAt && clientSecretExpiresAt
< Date.now() / 1000` (the stored value is in seconds, `now` in
milliseconds; `0` is falsy and so never counts as expired). -/
def clientExpired (now : Nat) (cl : RegisteredClient) : Bool :=
  match cl.clientSecretExpiresAt with
  | some e => if e = 0 then false else decide (e * 1000 < now)
  | none => false

/-- The copy returned by dcr.ts lookups: the cached record with its
client secret decrypted (a falsy stored secret becomes `undefined`). -/
def decryptClient (c : Crypto) (cl : RegisteredClient) : RegisteredClient :=
  { cl with clientSecret := match cl.clientSecret with
      | some s => if s = "" then none else some (c.dec s)
      | none => none }

/-- The fallback loop of dcr.ts `getRegisteredClient`: scan the cache in
insertion order for a key starting with `issuer|resourceUri`, evicting
expired matches, and return the first live match decrypted. -/
def fallbackScan (c : Crypto) (pfx : String) (entries : List (String × RegisteredClient))
    (now : Nat) : Option RegisteredClient × List (String × RegisteredClient) :=
  match entries with
  | [] => (none, [])
  | (k, cl) :: rest =>
    if strStartsWith k pfx then
      if clientExpired now cl then
        fallbackScan c pfx rest now
      else
        (some (decryptClient c cl), (k, cl) :: rest)
    else
      let r := fallbackScan c pfx rest now
      (r.1, (k, cl) :: r.2)

/-- dcr.ts `getRegisteredClient`: exact lookup under
`issuer|resourceUri|redirectUri` first (evicting an expired hit), then
the fallback scan for any key with `issuer|resourceUri` at its start.
Returns the found client (if any) together with the cache after
evictions. -/
def getRegisteredClient (c : Crypto) (store : List (String × RegisteredClient))
    (issuer resourceUri : String) (redirectUri : Option String) (now : Nat) :
    Option RegisteredClient × List (String × RegisteredClient) :=
  match redirectUri with
  | some u =>
    if u = "" then fallbackScan c (issuer ++ "|" ++ resourceUri) store now
    else
      match mapGet store (clientCacheKey issuer resourceUri (some u)) with
      | some cl =>
        if clientExpired now cl then
          fallbackScan c (issuer ++ "|" ++ resourceUri)
            (mapDelete store (clientCacheKey issuer resourceUri (some u))) now
        else
          (some (decryptClient c cl), store)
      | none => fallbackScan c (issuer ++ "|" ++ resourceUri) store now
  | none => fallbackScan c (issuer ++ "|" ++ resourceUri) store now

/-- dcr.ts `registerClient`, with the registration endpoint's HTTP
response an explicit argument: requires a (truthy) registration
endpoint, returns a cached client when the exact-redirect lookup hits,
otherwise POSTs and accepts the response when `response.ok || status ===
201`; a successful response must carry a truthy `client_id` (else the
invalid-DCR-response error) and is then stored under the
(issuer, resourceUri, redirectUri) cache key with the secret encrypted,
the raw secret being returned for immediate use. -/
def registerClient (c : Crypto) (store : List (String × RegisteredClient))
    (metadata : AuthServerMetadata) (resourceUri redirectUri : String)
    (resp : DcrHttpResponse) (now : Nat) :
    Except DcrError RegisteredClient × List (String × RegisteredClient) :=
  match metadata.registration_endpoint with
  | none => (Except.error DcrError.dcrUnsupported, store)
  | some ep =>
    if ep = "" then (Except.error DcrError.dcrUnsupported, store)
    else
      let checked := getRegisteredClient c store metadata.issuer resourceUri
        (some redirectUri) now
      match checked.1 with
      | some existing => (Except.ok existing, checked.2)
      | none =>
        if httpOk resp.status = false ∧ resp.status ≠ 201 then
          (Except.error DcrError.dcrFailed, checked.2)
        else
          match resp.body with
          | none => (Except.error DcrError.invalidJson, checked.2)
          | some body =>
            if falsyStr body.client_id then
              (Except.error DcrError.invalidDcrResponse, checked.2)
            else
              let client : RegisteredClient := {
                clientId := body.client_id.getD "",
                clientSecret := match body.client_secret with
                  | some s => if s = "" then none else some (c.enc s)
                  | none => none,
                issuer := metadata.issuer,
                resourceUri := resourceUri,
                registeredAt := now,
                clientSecretExpiresAt := body.client_secret_expires_at }
              let key := clientCacheKey metadata.issuer resourceUri (some redirectUri)
              (Except.ok { client with clientSecret := body.client_secret },
               mapSet checked.2 key client)

/-- discovery.ts structural validation of a fetched AS metadata
document: `issuer`, `authorization_endpoint` and `token_endpoint` must
all be truthy. -/
def validAsMetadata (m : AsMetadataDoc) : Bool :=
  !(falsyStr m.issuer || falsyStr m.authorization_endpoint || falsyStr m.token_endpoint)

/-- The candidate-URL loop of discovery.ts `discoverAuthServerMetadata`,
over the ordered fetch outcomes of the candidate well-known URLs:
failed or structurally invalid documents are skipped; a valid document
whose issuer (after trailing-slash trimming) matches is returned at
once; the first valid mismatched document is remembered and returned
only when the loop exhausts all candidates without an exact match. -/
def discoverAuthServerMetadataLoop (issuer : String) (mismatched : Option AsMetadataDoc) :
    List FetchResult → Except DiscoveryError AsMetadataDoc
  | [] =>
    match mismatched with
    | some m0 => Except.ok m0
    | none => Except.error DiscoveryError.discoveryFailed
  | r :: rest =>
    match r with
    | FetchResult.fail => discoverAuthServerMetadataLoop issuer mismatched rest
    | FetchResult.success m =>
      if validAsMetadata m then
        if trimTrailingSlash issuer = trimTrailingSlash (m.issuer.getD "") then
          Except.ok m
        else
          discoverAuthServerMetadataLoop issuer
            (match mismatched with
             | some m0 => some m0
             | none => some m) rest
      else
        discoverAuthServerMetadataLoop issuer mismatched rest

/-- discovery.ts `discoverAuthServerMetadata` (cache aside), abstracted
over the ordered fetch outcomes of its candidate URLs. -/
def discoverAuthServerMetadata (issuer : String) (results : List FetchResult) :
    Except DiscoveryError AsMetadataDoc :=
  discoverAuthServerMetadataLoop issuer none results

/-- The first structurally valid document among the fetch outcomes, in
candidate-URL order. -/
def firstValidMetadata : List FetchResult → Option AsMetadataDoc
  | [] => none
  | FetchResult.fail :: rest => firstValidMetadata rest
  | FetchResult.success m :: rest =>
    if validAsMetadata m then some m else firstValidMetadata rest

/-- The first structurally valid document, or the discovery failure when
there is none. -/
def firstValidOrFail (results : List FetchResult) : Except DiscoveryError AsMetadataDoc :=
  match firstValidMetadata results with
  | some m => Except.ok m
  | none => Except.error DiscoveryError.discoveryFailed

/-- The parsed documents among the fetch outcomes. -/
def successDocs : List FetchResult → List AsMetadataDoc
  | [] => []
  | FetchResult.fail :: rest => successDocs rest
  | FetchResult.success m :: rest => m :: successDocs rest

/-- authFlow.ts `initiateAuthFlow` scope determination (lines 604-612):
start from `config.scopes`; a truthy challenge-scope string overrides it
(split on spaces); otherwise, when `config.scopes` is undefined, fall
back to the protected resource's `scopes_supported`. -/
def initiateAuthFlowScopes (configScopes : Option (List String))
    (challengedScopes : Option String) (prScopes : Option (List String)) :
    Option (List String) :=
  match challengedScopes with
  | some cs =>
    if cs = "" then
      match configScopes with
      | some s => some s
      | none => prScopes
    else some (jsSplitSpace cs)
  | none =>
    match configScopes with
    | some s => some s
    | none => prScopes

/-- The query parameters set by authFlow.ts `buildAuthorizationUrl`, in
order: the seven fixed parameters, then `scope` when the resolved scope
list is truthy and nonempty, else the auth server metadata's
`scopes_supported` when present and nonempty, else no scope parameter. -/
def buildAuthorizationUrlParams (authServer : AuthServerMetadata)
    (clientId redirectUri stateVal codeChallenge codeChallengeMethod resourceUri : String)
    (scopes : Option (List String)) : List (String × String) :=
  [("response_type", "code"),
   ("client_id", clientId),
   ("redirect_uri", redirectUri),
   ("state", stateVal),
   ("code_challenge", codeChallenge),
   ("code_challenge_method", codeChallengeMethod),
   ("resource", resourceUri)]
  ++ (match scopes with
      | some l =>
        if 0 < l.length then [("scope", joinSpace l)]
        else
          match authServer.scopes_supported with
          | some s => if 0 < s.length then [("scope", joinSpace s)] else []
          | none => []
      | none =>
        match authServer.scopes_supported with
        | some s => if 0 < s.length then [("scope", joinSpace s)] else []
        | none => [])

/-- The authorization-URL query parameters produced by
`initiateAuthFlow` for given metadata, config scopes and challenge
scopes (composition of `initiateAuthFlowScopes` and
`buildAuthorizationUrl`). -/
def initiateAuthFlowAuthUrlParams (authServer : AuthServerMetadata)
    (pr : ProtectedResourceMetadata) (configScopes : Option (List String))
    (challengedScopes : Option String)
    (clientId redirectUri stateVal codeChallenge codeChallengeMethod resourceUri : String) :
    List (String × String) :=
  buildAuthorizationUrlParams authServer clientId redirectUri stateVal codeChallenge
    codeChallengeMethod resourceUri
    (initiateAuthFlowScopes configScopes challengedScopes pr.scopes_supported)

/-- The scope parameter as the claim states it: explicitly configured
request scopes first, then the challenge-derived scope string, then the
protected resource's advertised `scopes_supported`, and no scope
parameter when none of the three is present. -/
def claimScopeParam (configScopes : Option (List String))
    (challengedScopes : Option String) (prScopes : Option (List String)) :
    Option String :=
  match configScopes with
  | some l => some (joinSpace l)
  | none =>
    match challengedScopes with
    | some cs => some cs
    | none =>
      match prScopes with
      | some l => some (joinSpace l)
      | none => none

/-- The scope parameter as the code resolves it: a truthy challenge
scope string first, then the configured request scopes, then the
protected resource's `scopes_supported`; when the resolved list is
absent or empty, the auth server metadata's `scopes_supported` is used,
and only if that too is absent or empty does the URL carry no scope
parameter. -/
def amendedScopeParam (configScopes : Option (List String))
    (challengedScopes : Option String) (prScopes asScopes : Option (List String)) :
    Option String :=
  match initiateAuthFlowScopes configScopes challengedScopes prScopes with
  | some l =>
    if 0 < l.length then some (joinSpace l)
    else
      match asScopes with
      | some s => if 0 < s.length then some (joinSpace s) else none
      | none => none
  | none =>
    match asScopes with
    | some s => if 0 < s.length then some (joinSpace s) else none
    | none => none

/-! ## Association-list map lemmas -/

theorem mapGet_mapSet_self {V : Type} (m : List (String × V)) (k : String) (v : V) :
    mapGet (mapSet m k v) k = some v := by
  induction m with
  | nil => simp [mapSet, mapGet]
  | cons kv rest ih =>
    obtain ⟨k', v'⟩ := kv
    by_cases h : k' = k
    · simp [mapSet, h, mapGet]
    · simp [mapSet, h, mapGet, ih]

theorem mapGet_mapDelete_self {V : Type} (m : List (String × V)) (k : String) :
    mapGet (mapDelete m k) k = none := by
  induction m with
  | nil => rfl
  | cons kv rest ih =>
    obtain ⟨k', v'⟩ := kv
    by_cases h : k' = k
    · simpa [mapDelete, h] using ih
    · simp [mapGet, mapDelete, h, ih]

theorem mapGet_eq_none_iff {V : Type} (m : List (String × V)) (k : String) :
    mapGet m k = none ↔ ∀ v, (k, v) ∉ m := by
  induction m with
  | nil => simp [mapGet]
  | cons kv rest ih =>
    obtain ⟨k', v'⟩ := kv
    by_cases h : k' = k
    · subst h
      constructor
      · intro hget
        simp [mapGet] at hget
      · intro hall
        exact absurd (List.mem_cons_self _ _) (hall v')
    · constructor
      · intro hget v hv
        rcases List.mem_cons.mp hv with h1 | h2
        · exact h (congrArg Prod.fst h1).symm
        · exact (ih.mp (by simpa [mapGet, h] using hget)) v h2
      · intro hall
        have hrest : mapGet rest k = none :=
          ih.mpr (fun v hv => hall v (List.mem_cons_of_mem _ hv))
        simpa [mapGet, h] using hrest

theorem mapGet_none_of_sublist {V : Type} {m' m : List (String × V)}
    (hs : m'.Sublist m) {k : String} (h : mapGet m k = none) : mapGet m' k = none := by
  rw [mapGet_eq_none_iff] at h ⊢
  intro v hv
  exact h v (hs.subset hv)

theorem mapDelete_sublist {V : Type} (m : List (String × V)) (k : String) :
    (mapDelete m k).Sublist m := by
  induction m with
  | nil => simp [mapDelete]
  | cons kv rest ih =>
    obtain ⟨k', v'⟩ := kv
    by_cases h : k' = k
    · simp only [mapDelete, h, if_pos]
      exact ih.cons _
    · simp only [mapDelete, h, if_neg, ite_false]
      exact ih.cons₂ _

/-! ## Pending-state lemmas -/

theorem handleAuthCallbackStatePhase_snd_of_found
    (pending : List (String × OAuthState)) (s : String) (now : Nat) (st : OAuthState)
    (h : mapGet pending s = some st) :
    (handleAuthCallbackStatePhase pending s now).2 = mapDelete pending s := by
  simp only [handleAuthCallbackStatePhase, h]
  split <;> rfl

theorem handleAuthCallbackStatePhase_fst_of_absent
    (pending : List (String × OAuthState)) (s : String) (now : Nat)
    (h : mapGet pending s = none) :
    (handleAuthCallbackStatePhase pending s now).1 =
      Except.error CallbackError.invalidOrExpiredState := by
  simp only [handleAuthCallbackStatePhase, h]

/-- Claim C2: a pending OAuth state stored by initiateAuthFlow is
consumed at most once: the first handleAuthCallback with that state
value removes it from the pending-state store (whatever its age and
whatever the later exchange does), and any second handleAuthCallback
with the same state value fails with the invalid-or-expired-state
error. -/
theorem oauthState_single_use (pending : List (String × OAuthState)) (st : OAuthState)
    (now0 now1 now2 : Nat) :
    mapGet (handleAuthCallbackStatePhase
        (initiateAuthFlowPending pending now0 st) st.state now1).2 st.state = none ∧
    (handleAuthCallbackStatePhase
        (handleAuthCallbackStatePhase
          (initiateAuthFlowPending pending now0 st) st.state now1).2 st.state now2).1 =
      Except.error CallbackError.invalidOrExpiredState := by
  have hstored : mapGet (initiateAuthFlowPending pending now0 st) st.state = some st :=
    mapGet_mapSet_self _ _ _
  have hsnd := handleAuthCallbackStatePhase_snd_of_found _ _ now1 _ hstored
  have hgone : mapGet (handleAuthCallbackStatePhase
      (initiateAuthFlowPending pending now0 st) st.state now1).2 st.state = none := by
    rw [hsnd]
    exact mapGet_mapDelete_self _ _
  exact ⟨hgone, handleAuthCallbackStatePhase_fst_of_absent _ _ now2 hgone⟩

/-- Claim C3: for a pending state created at time `createdAt`, a
callback at `createdAt + 9min59s` passes the 10-minute TTL check and
proceeds to the code exchange, while a callback at `createdAt + 10min1s`
fails with the expired-state error (the TTL comparison is strict). -/
theorem handleAuthCallback_ttl_boundary (pending : List (String × OAuthState))
    (s : String) (st : OAuthState) (h : mapGet pending s = some st) :
    (handleAuthCallbackStatePhase pending s (st.createdAt + 599000)).1 = Except.ok st ∧
    (handleAuthCallbackStatePhase pending s (st.createdAt + 601000)).1 =
      Except.error CallbackError.stateExpired := by
  constructor
  · simp only [handleAuthCallbackStatePhase, h, STATE_TTL_MS]
    rw [if_neg (by omega)]
  · simp only [handleAuthCallbackStatePhase, h, STATE_TTL_MS]
    rw [if_pos (by omega)]

/-- Witness for `handleAuthCallback_ttl_boundary`: a concrete pending
state created at time 0. -/
theorem handleAuthCallback_ttl_boundary_witness :
    mapGet [("s", (⟨"s", "v", "r", "R", "I", 0, none⟩ : OAuthState))] "s" =
      some ⟨"s", "v", "r", "R", "I", 0, none⟩ ∧
    ((handleAuthCallbackStatePhase [("s", (⟨"s", "v", "r", "R", "I", 0, none⟩ : OAuthState))]
        "s" (0 + 599000)).1 = Except.ok ⟨"s", "v", "r", "R", "I", 0, none⟩ ∧
      (handleAuthCallbackStatePhase [("s", (⟨"s", "v", "r", "R", "I", 0, none⟩ : OAuthState))]
        "s" (0 + 601000)).1 = Except.error CallbackError.stateExpired) :=
  ⟨by decide,
   handleAuthCallback_ttl_boundary [("s", ⟨"s", "v", "r", "R", "I", 0, none⟩)] "s"
     ⟨"s", "v", "r", "R", "I", 0, none⟩ (by decide)⟩

/-! ## Token manager -/

/-- Claim C4: `hasValidTokens` is true exactly when tokens are stored
for the resource and their `expiresAt` lies more than 30 seconds after
the current time; in particular, for stored tokens it is true when
evaluated at `expiresAt - 31s` and false at `expiresAt - 29s`. -/
theorem hasValidTokens_buffer (c : Crypto) (store : List (String × StoredTokens))
    (uri : String) (now : Nat) (t : StoredTokens)
    (h : mapGet store uri = some t) (h31 : 31000 ≤ t.expiresAt) :
    (hasValidTokens c store uri now = true ↔
      ∃ e, mapGet store uri = some e ∧ now + 30000 < e.expiresAt) ∧
    hasValidTokens c store uri (t.expiresAt - 31000) = true ∧
    hasValidTokens c store uri (t.expiresAt - 29000) = false := by
  refine ⟨?_, ?_, ?_⟩
  · simp only [hasValidTokens, getTokens, h]
    constructor
    · intro hb
      exact ⟨t, rfl, by simpa using hb⟩
    · rintro ⟨e, he, hlt⟩
      cases he
      simpa using hlt
  · simp only [hasValidTokens, getTokens, h]
    simpa using (by omega : t.expiresAt - 31000 + 30000 < t.expiresAt)
  · simp only [hasValidTokens, getTokens, h]
    simpa using (by omega : ¬(t.expiresAt - 29000 + 30000 < t.expiresAt))

/-- Witness for `hasValidTokens_buffer`: concrete stored tokens expiring
at epoch millisecond 1000000. -/
theorem hasValidTokens_buffer_witness :
    (mapGet [("R", (⟨"at", none, "Bearer", 1000000, none, "I"⟩ : StoredTokens))] "R" =
        some ⟨"at", none, "Bearer", 1000000, none, "I"⟩ ∧ 31000 ≤ 1000000) ∧
    ((hasValidTokens idCrypto [("R", (⟨"at", none, "Bearer", 1000000, none, "I"⟩ : StoredTokens))]
          "R" 500000 = true ↔
        ∃ e, mapGet [("R", (⟨"at", none, "Bearer", 1000000, none, "I"⟩ : StoredTokens))] "R" =
            some e ∧ 500000 + 30000 < e.expiresAt) ∧
      hasValidTokens idCrypto [("R", (⟨"at", none, "Bearer", 1000000, none, "I"⟩ : StoredTokens))]
          "R" (1000000 - 31000) = true ∧
      hasValidTokens idCrypto [("R", (⟨"at", none, "Bearer", 1000000, none, "I"⟩ : StoredTokens))]
          "R" (1000000 - 29000) = false) :=
  ⟨⟨by decide, by decide⟩,
   hasValidTokens_buffer idCrypto [("R", ⟨"at", none, "Bearer", 1000000, none, "I"⟩)] "R"
     500000 ⟨"at", none, "Bearer", 1000000, none, "I"⟩ (by decide) (by decide)⟩

/-- Claim C5: when tokens with a (truthy) refresh token are stored and
the token endpoint answers the refresh request with HTTP 400 or 401,
`refreshTokens` deletes the stored tokens before throwing the
refresh-failure error, so a subsequent `getTokens` returns null. -/
theorem refreshTokens_terminal_failure (c : Crypto)
    (store : List (String × StoredTokens)) (uri : String) (resp : TokenHttpResponse)
    (now : Nat) (t : OAuthTokens) (rt : String)
    (hget : getTokens c store uri = some t) (hrt : t.refreshToken = some rt)
    (hne : rt ≠ "") (hst : resp.status = 400 ∨ resp.status = 401) :
    (refreshTokens c store uri resp now).1 = Except.error RefreshError.refreshFailed ∧
    (refreshTokens c store uri resp now).2 = removeTokens store uri ∧
    getTokens c (refreshTokens c store uri resp now).2 uri = none := by
  have hok : httpOk resp.status = false := by
    rcases hst with h400 | h401
    · rw [h400]; decide
    · rw [h401]; decide
  have hcond : resp.status = 400 ∨ resp.status = 401 := hst
  simp only [refreshTokens, hget, hrt, if_neg hne, hok, if_pos hcond, if_true]
  refine ⟨trivial, trivial, ?_⟩
  simp [getTokens, removeTokens, mapGet_mapDelete_self]

/-- Witness for `refreshTokens_terminal_failure`: a concrete store and a
401 response. -/
theorem refreshTokens_terminal_failure_witness :
    (getTokens idCrypto [("R", (⟨"at", some "rt", "Bearer", 1000000, none, "I"⟩ : StoredTokens))]
        "R" = some ⟨"at", some "rt", "Bearer", 1000000, none⟩ ∧
      ((401 : Nat) = 400 ∨ (401 : Nat) = 401)) ∧
    ((refreshTokens idCrypto
        [("R", (⟨"at", some "rt", "Bearer", 1000000, none, "I"⟩ : StoredTokens))] "R"
        ⟨401, none⟩ 0).1 = Except.error RefreshError.refreshFailed ∧
      (refreshTokens idCrypto
        [("R", (⟨"at", some "rt", "Bearer", 1000000, none, "I"⟩ : StoredTokens))] "R"
        ⟨401, none⟩ 0).2 =
        removeTokens [("R", (⟨"at", some "rt", "Bearer", 1000000, none, "I"⟩ : StoredTokens))] "R" ∧
      getTokens idCrypto
        (refreshTokens idCrypto
          [("R", (⟨"at", some "rt", "Bearer", 1000000, none, "I"⟩ : StoredTokens))] "R"
          ⟨401, none⟩ 0).2 "R" = none) :=
  ⟨⟨by decide, by decide⟩,
   refreshTokens_terminal_failure idCrypto
     [("R", ⟨"at", some "rt", "Bearer", 1000000, none, "I"⟩)] "R" ⟨401, none⟩ 0
     ⟨"at", some "rt", "Bearer", 1000000, none⟩ "rt" (by decide) rfl (by decide)
     (Or.inr rfl)⟩

/-- Claim C10: when the token endpoint answers the refresh request with
a non-success status other than 400 and 401, `refreshTokens` throws the
refresh-failure error but leaves the token store unchanged, so a
subsequent `getTokens` returns the same tokens as before. -/
theorem refreshTokens_nonterminal_failure (c : Crypto)
    (store : List (String × StoredTokens)) (uri : String) (resp : TokenHttpResponse)
    (now : Nat) (t : OAuthTokens) (rt : String)
    (hget : getTokens c store uri = some t) (hrt : t.refreshToken = some rt)
    (hne : rt ≠ "") (hok : httpOk resp.status = false)
    (h400 : resp.status ≠ 400) (h401 : resp.status ≠ 401) :
    (refreshTokens c store uri resp now).1 = Except.error RefreshError.refreshFailed ∧
    (refreshTokens c store uri resp now).2 = store ∧
    getTokens c (refreshTokens c store uri resp now).2 uri = getTokens c store uri := by
  have hcond : ¬(resp.status = 400 ∨ resp.status = 401) := by
    rintro (h | h)
    · exact h400 h
    · exact h401 h
  simp only [refreshTokens, hget, hrt, if_neg hne, hok, if_neg hcond, if_true]
  exact ⟨trivial, trivial, trivial⟩

/-- Witness for `refreshTokens_nonterminal_failure`: a concrete store
and a 503 response. -/
theorem refreshTokens_nonterminal_failure_witness :
    (getTokens idCrypto [("R", (⟨"at", some "rt", "Bearer", 1000000, none, "I"⟩ : StoredTokens))]
        "R" = some ⟨"at", some "rt", "Bearer", 1000000, none⟩ ∧
      httpOk 503 = false) ∧
    ((refreshTokens idCrypto
        [("R", (⟨"at", some "rt", "Bearer", 1000000, none, "I"⟩ : StoredTokens))] "R"
        ⟨503, none⟩ 0).1 = Except.error RefreshError.refreshFailed ∧
      (refreshTokens idCrypto
        [("R", (⟨"at", some "rt", "Bearer", 1000000, none, "I"⟩ : StoredTokens))] "R"
        ⟨503, none⟩ 0).2 =
        [("R", (⟨"at", some "rt", "Bearer", 1000000, none, "I"⟩ : StoredTokens))] ∧
      getTokens idCrypto
        (refreshTokens idCrypto
          [("R", (⟨"at", some "rt", "Bearer", 1000000, none, "I"⟩ : StoredTokens))] "R"
          ⟨503, none⟩ 0).2 "R" =
        getTokens idCrypto
          [("R", (⟨"at", some "rt", "Bearer", 1000000, none, "I"⟩ : StoredTokens))] "R") :=
  ⟨⟨by decide, by decide⟩,
   refreshTokens_nonterminal_failure idCrypto
     [("R", ⟨"at", some "rt", "Bearer", 1000000, none, "I"⟩)] "R" ⟨503, none⟩ 0
     ⟨"at", some "rt", "Bearer", 1000000, none⟩ "rt" (by decide) rfl (by decide) (by decide)
     (by decide) (by decide)⟩

/-! ## Dynamic client registration -/

theorem fallbackScan_sublist (c : Crypto) (pfx : String) (now : Nat)
    (entries : List (String × RegisteredClient)) :
    ((fallbackScan c pfx entries now).2).Sublist entries := by
  induction entries with
  | nil => simp [fallbackScan]
  | cons kv rest ih =>
    obtain ⟨k, cl0⟩ := kv
    by_cases hs : strStartsWith k pfx = true
    · by_cases he : clientExpired now cl0 = true
      · simp only [fallbackScan, hs, he, if_true]
        exact ih.cons _
      · simp only [fallbackScan, hs, if_true, he, if_false, Bool.false_eq_true]
        exact List.Sublist.refl _
    · simp only [fallbackScan, hs, if_false, Bool.false_eq_true]
      exact ih.cons₂ _

theorem fallbackScan_found (c : Crypto) (pfx : String) (now : Nat)
    (entries : List (String × RegisteredClient)) (cl : RegisteredClient)
    (h : (fallbackScan c pfx entries now).1 = some cl) :
    ∃ k cl0, (k, cl0) ∈ entries ∧ strStartsWith k pfx = true ∧
      clientExpired now cl0 = false ∧ cl = decryptClient c cl0 := by
  induction entries with
  | nil => simp [fallbackScan] at h
  | cons kv rest ih =>
    obtain ⟨k, cl0⟩ := kv
    by_cases hs : strStartsWith k pfx = true
    · by_cases he : clientExpired now cl0 = true
      · have h' : (fallbackScan c pfx rest now).1 = some cl := by
          simpa only [fallbackScan, hs, he, if_true] using h
        obtain ⟨k', cl', hm, h1, h2, h3⟩ := ih h'
        exact ⟨k', cl', List.mem_cons_of_mem _ hm, h1, h2, h3⟩
      · have hcl : some (decryptClient c cl0) = some cl := by
          simpa only [fallbackScan, hs, if_true, he, if_false, Bool.false_eq_true] using h
        exact ⟨k, cl0, List.mem_cons_self _ _, hs, Bool.eq_false_iff.mpr he,
          (Option.some_injective _ hcl).symm⟩
    · have h' : (fallbackScan c pfx rest now).1 = some cl := by
        simpa only [fallbackScan, hs, if_false, Bool.false_eq_true] using h
      obtain ⟨k', cl', hm, h1, h2, h3⟩ := ih h'
      exact ⟨k', cl', List.mem_cons_of_mem _ hm, h1, h2, h3⟩

theorem getRegisteredClient_sublist (c : Crypto) (store : List (String × RegisteredClient))
    (issuer resourceUri : String) (redirectUri : Option String) (now : Nat) :
    ((getRegisteredClient c store issuer resourceUri redirectUri now).2).Sublist store := by
  cases redirectUri with
  | none => exact fallbackScan_sublist c _ now store
  | some u =>
    by_cases hu : u = ""
    · simp only [getRegisteredClient, hu, if_pos]
      exact fallbackScan_sublist c _ now store
    · simp only [getRegisteredClient, hu, if_neg, ite_false]
      cases hg : mapGet store (clientCacheKey issuer resourceUri (some u)) with
      | none => exact fallbackScan_sublist c _ now store
      | some cl =>
        by_cases he : clientExpired now cl = true
        · simp only [he, if_true]
          exact (fallbackScan_sublist c _ now _).trans (mapDelete_sublist store _)
        · simp only [he, if_false, Bool.false_eq_true]
          exact List.Sublist.refl _

theorem getRegisteredClient_none_key_absent (c : Crypto)
    (store : List (String × RegisteredClient)) (issuer resourceUri u : String) (now : Nat)
    (hu : u ≠ "")
    (hnone : (getRegisteredClient c store issuer resourceUri (some u) now).1 = none) :
    mapGet ((getRegisteredClient c store issuer resourceUri (some u) now).2)
      (clientCacheKey issuer resourceUri (some u)) = none := by
  simp only [getRegisteredClient, hu, if_neg, ite_false] at hnone ⊢
  cases hg : mapGet store (clientCacheKey issuer resourceUri (some u)) with
  | none =>
    exact mapGet_none_of_sublist (fallbackScan_sublist c _ now store) hg
  | some cl =>
    rw [hg] at hnone
    by_cases he : clientExpired now cl = true
    · simp only [hg, he, if_true]
      exact mapGet_none_of_sublist (fallbackScan_sublist c _ now _)
        (mapGet_mapDelete_self store _)
    · simp only [he, if_false, Bool.false_eq_true] at hnone
      exact (Option.some_ne_none _ hnone).elim

/-- Counterexample to claim C7: with a single cached client registered
for the pair ("I", "Rx") under key "I|Rx|u", a lookup for the different
pair ("I", "R") with redirect URI "u2" finds no exact entry, yet the
fallback scan returns that client, because "I|Rx|u" starts with the
string "I|R". -/
theorem getRegisteredClient_crossResource_counterexample :
    (getRegisteredClient idCrypto
        [("I|Rx|u", (⟨"c1", none, "I", "Rx", 0, none⟩ : RegisteredClient))]
        "I" "R" (some "u2") 0).1 = some ⟨"c1", none, "I", "Rx", 0, none⟩ ∧
    mapGet [("I|Rx|u", (⟨"c1", none, "I", "Rx", 0, none⟩ : RegisteredClient))] "I|R|u2" =
      none ∧
    (⟨"c1", none, "I", "Rx", 0, none⟩ : RegisteredClient).resourceUri ≠ "R" := by
  decide

/-- Claim C7 (amended): when the exact (issuer, resourceUri,
redirectUri) key misses, any client returned by `getRegisteredClient`
comes from a live cache entry whose key string merely starts with
`issuer + "|" + resourceUri` — which may be a client registered for a
different resource URI (or issuer) whose key extends that string, not
only one registered for exactly the requested pair. -/
theorem getRegisteredClient_fallback_origin (c : Crypto)
    (store : List (String × RegisteredClient)) (issuer resourceUri u : String) (now : Nat)
    (cl : RegisteredClient)
    (hmiss : mapGet store (clientCacheKey issuer resourceUri (some u)) = none)
    (hres : (getRegisteredClient c store issuer resourceUri (some u) now).1 = some cl) :
    ∃ k cl0, (k, cl0) ∈ store ∧ strStartsWith k (issuer ++ "|" ++ resourceUri) = true ∧
      clientExpired now cl0 = false ∧ cl = decryptClient c cl0 := by
  by_cases hu : u = ""
  · simp only [getRegisteredClient, hu, if_pos] at hres
    exact fallbackScan_found c _ now store cl hres
  · simp only [getRegisteredClient, hu, if_neg, ite_false, hmiss] at hres
    exact fallbackScan_found c _ now store cl hres

/-- Witness for `getRegisteredClient_fallback_origin` at the concrete
cross-resource cache of the counterexample. -/
theorem getRegisteredClient_fallback_origin_witness :
    ∃ k cl0,
      (k, cl0) ∈ [("I|Rx|u", (⟨"c1", none, "I", "Rx", 0, none⟩ : RegisteredClient))] ∧
      strStartsWith k ("I" ++ "|" ++ "R") = true ∧
      clientExpired 0 cl0 = false ∧
      (⟨"c1", none, "I", "Rx", 0, none⟩ : RegisteredClient) = decryptClient idCrypto cl0 :=
  getRegisteredClient_fallback_origin idCrypto
    [("I|Rx|u", ⟨"c1", none, "I", "Rx", 0, none⟩)] "I" "R" "u2" 0
    ⟨"c1", none, "I", "Rx", 0, none⟩ (by decide) (by decide)

/-- Claim C8: when the registration endpoint's response carries no
`client_id`, `registerClient` fails with the invalid-DCR-response error
and caches nothing: the (issuer, resourceUri, redirectUri) key is absent
from the resulting store, and the resulting store contains no entry that
was not already present (it is a sublist of the original, entries
removed only by expiry eviction during the existence check). -/
theorem registerClient_missing_client_id (c : Crypto)
    (store : List (String × RegisteredClient)) (metadata : AuthServerMetadata)
    (resourceUri redirectUri : String) (resp : DcrHttpResponse) (now : Nat)
    (ep : String) (b : DCRResponseBody)
    (hep : metadata.registration_endpoint = some ep) (hepne : ep ≠ "")
    (hu : redirectUri ≠ "")
    (hex : (getRegisteredClient c store metadata.issuer resourceUri (some redirectUri)
      now).1 = none)
    (hgate : httpOk resp.status = true ∨ resp.status = 201)
    (hbody : resp.body = some b) (hcid : b.client_id = none) :
    (registerClient c store metadata resourceUri redirectUri resp now).1 =
      Except.error DcrError.invalidDcrResponse ∧
    mapGet ((registerClient c store metadata resourceUri redirectUri resp now).2)
      (clientCacheKey metadata.issuer resourceUri (some redirectUri)) = none ∧
    ((registerClient c store metadata resourceUri redirectUri resp now).2).Sublist store := by
  have hgate' : ¬(httpOk resp.status = false ∧ resp.status ≠ 201) := by
    rintro ⟨hf, hne201⟩
    rcases hgate with ht | h201
    · rw [ht] at hf; exact absurd hf (by decide)
    · exact hne201 h201
  have hfalsy : falsyStr b.client_id = true := by rw [hcid]; rfl
  simp only [registerClient, hep, if_neg hepne, ite_false, hex, if_neg hgate', hbody, hfalsy,
    if_pos, if_true]
  exact ⟨trivial,
    getRegisteredClient_none_key_absent c store metadata.issuer resourceUri redirectUri now
      hu hex,
    getRegisteredClient_sublist c store metadata.issuer resourceUri (some redirectUri) now⟩

/-- Witness for `registerClient_missing_client_id`: empty cache, a 201
response whose body has no `client_id`. -/
theorem registerClient_missing_client_id_witness :
    ((getRegisteredClient idCrypto []
        (⟨"I", "A", "T", some "REG", none, none, none⟩ : AuthServerMetadata).issuer
        "R" (some "u") 0).1 = none ∧
      (httpOk 201 = true ∨ (201 : Nat) = 201)) ∧
    ((registerClient idCrypto [] ⟨"I", "A", "T", some "REG", none, none, none⟩ "R" "u"
        ⟨201, some ⟨none, none, none⟩⟩ 0).1 = Except.error DcrError.invalidDcrResponse ∧
      mapGet ((registerClient idCrypto [] ⟨"I", "A", "T", some "REG", none, none, none⟩ "R" "u"
          ⟨201, some ⟨none, none, none⟩⟩ 0).2)
        (clientCacheKey (⟨"I", "A", "T", some "REG", none, none, none⟩ :
          AuthServerMetadata).issuer "R" (some "u")) = none ∧
      ((registerClient idCrypto [] ⟨"I", "A", "T", some "REG", none, none, none⟩ "R" "u"
          ⟨201, some ⟨none, none, none⟩⟩ 0).2).Sublist []) :=
  ⟨⟨by decide, by decide⟩,
   registerClient_missing_client_id idCrypto [] ⟨"I", "A", "T", some "REG", none, none, none⟩
     "R" "u" ⟨201, some ⟨none, none, none⟩⟩ 0 "REG" ⟨none, none, none⟩ rfl (by decide)
     (by decide) (by decide) (Or.inr rfl) rfl rfl⟩

/-- Counterexample to claim C9: an HTTP 204 response (neither 200 nor
201) is treated as successful — `registerClient` parses the body and
returns the registered client instead of failing with a DCR error. -/
theorem registerClient_status204_counterexample :
    (registerClient idCrypto [] ⟨"I", "A", "T", some "REG", none, none, none⟩ "R" "u"
        ⟨204, some ⟨some "cid", none, none⟩⟩ 0).1 =
      Except.ok ⟨"cid", none, "I", "R", 0, none⟩ ∧
    (204 : Nat) ≠ 200 ∧ (204 : Nat) ≠ 201 :=
  ⟨rfl, by decide, by decide⟩

/-- Claim C9 (amended): with a (truthy) registration endpoint and no
cached client for the exact redirect URI, `registerClient` treats the
DCR response as successful (proceeding to parse and store) if and only
if the status is in the 2xx range (`response.ok`; the explicit
201 check in the source is redundant), and fails with the generic DCR
error exactly on every other status. -/
theorem registerClient_success_gate (c : Crypto)
    (store : List (String × RegisteredClient)) (metadata : AuthServerMetadata)
    (resourceUri redirectUri : String) (resp : DcrHttpResponse) (now : Nat) (ep : String)
    (hep : metadata.registration_endpoint = some ep) (hepne : ep ≠ "")
    (hex : (getRegisteredClient c store metadata.issuer resourceUri (some redirectUri)
      now).1 = none) :
    ((registerClient c store metadata resourceUri redirectUri resp now).1 =
        Except.error DcrError.dcrFailed ↔ httpOk resp.status = false) := by
  simp only [registerClient, hep, if_neg hepne, ite_false, hex]
  by_cases hok : httpOk resp.status = true
  · have hgate' : ¬(httpOk resp.status = false ∧ resp.status ≠ 201) := by
      rw [hok]
      simp
    rw [if_neg hgate', hok]
    simp only [Bool.true_eq_false, iff_false]
    cases hb : resp.body with
    | none => simp [hb]
    | some b =>
      by_cases hf : falsyStr b.client_id = true
      · simp [hb, hf]
      · simp [hb, hf]
  · have hokf : httpOk resp.status = false := by simpa using hok
    have h201 : resp.status ≠ 201 := by
      intro h
      rw [h] at hokf
      exact absurd hokf (by decide)
    rw [if_pos ⟨hokf, h201⟩, hokf]
    simp

/-- Witness for `registerClient_success_gate` at a concrete 500
response. -/
theorem registerClient_success_gate_witness :
    ((getRegisteredClient idCrypto []
        (⟨"I", "A", "T", some "REG", none, none, none⟩ : AuthServerMetadata).issuer
        "R" (some "u") 0).1 = none) ∧
    ((registerClient idCrypto [] ⟨"I", "A", "T", some "REG", none, none, none⟩ "R" "u"
        ⟨500, none⟩ 0).1 = Except.error DcrError.dcrFailed ↔ httpOk 500 = false) :=
  ⟨by decide,
   registerClient_success_gate idCrypto [] ⟨"I", "A", "T", some "REG", none, none, none⟩
     "R" "u" ⟨500, none⟩ 0 "REG" rfl (by decide) (by decide)⟩

/-! ## Authorization-server metadata discovery -/

theorem discoverLoop_some_ne_error (issuer : String) (m0 : AsMetadataDoc)
    (results : List FetchResult) :
    discoverAuthServerMetadataLoop issuer (some m0) results ≠
      Except.error DiscoveryError.discoveryFailed := by
  induction results generalizing m0 with
  | nil => simp [discoverAuthServerMetadataLoop]
  | cons r rest ih =>
    cases r with
    | fail =>
      simp only [discoverAuthServerMetadataLoop]
      exact ih m0
    | success m =>
      simp only [discoverAuthServerMetadataLoop]
      by_cases hv : validAsMetadata m = true
      · rw [if_pos hv]
        by_cases hm : trimTrailingSlash issuer = trimTrailingSlash (m.issuer.getD "")
        · simp [hm]
        · rw [if_neg hm]
          exact ih m0
      · rw [if_neg hv]
        exact ih m0

theorem discoverLoop_error_iff (issuer : String) (results : List FetchResult) :
    ∀ mismatched : Option AsMetadataDoc,
      (discoverAuthServerMetadataLoop issuer mismatched results =
          Except.error DiscoveryError.discoveryFailed ↔
        mismatched = none ∧ firstValidMetadata results = none) := by
  induction results with
  | nil =>
    intro mismatched
    cases mismatched with
    | none => simp [discoverAuthServerMetadataLoop, firstValidMetadata]
    | some m0 => simp [discoverAuthServerMetadataLoop, firstValidMetadata]
  | cons r rest ih =>
    intro mismatched
    cases r with
    | fail =>
      simpa only [discoverAuthServerMetadataLoop, firstValidMetadata] using ih mismatched
    | success m =>
      simp only [discoverAuthServerMetadataLoop, firstValidMetadata]
      by_cases hv : validAsMetadata m = true
      · rw [if_pos hv, if_pos hv]
        by_cases hm : trimTrailingSlash issuer = trimTrailingSlash (m.issuer.getD "")
        · rw [if_pos hm]
          simp
        · rw [if_neg hm]
          cases mismatched with
          | none =>
            simp only [discoverLoop_some_ne_error issuer m rest, false_iff]
            rintro ⟨-, habs⟩
            exact Option.some_ne_none m habs
          | some m0 =>
            simp only [discoverLoop_some_ne_error issuer m0 rest, false_iff]
            rintro ⟨habs, -⟩
            exact Option.some_ne_none m0 habs
      · rw [if_neg hv, if_neg hv]
        exact ih mismatched

theorem discoverLoop_all_mismatched (issuer : String) (results : List FetchResult)
    (hmis : ∀ m ∈ successDocs results, validAsMetadata m = true →
      trimTrailingSlash (m.issuer.getD "") ≠ trimTrailingSlash issuer) :
    ∀ mismatched : Option AsMetadataDoc,
      discoverAuthServerMetadataLoop issuer mismatched results =
        (match mismatched with
         | some m0 => Except.ok m0
         | none => firstValidOrFail results) := by
  induction results with
  | nil =>
    intro mismatched
    cases mismatched with
    | none => simp [discoverAuthServerMetadataLoop, firstValidOrFail, firstValidMetadata]
    | some m0 => simp [discoverAuthServerMetadataLoop]
  | cons r rest ih =>
    intro mismatched
    cases r with
    | fail =>
      have hmis' : ∀ m ∈ successDocs rest, validAsMetadata m = true →
          trimTrailingSlash (m.issuer.getD "") ≠ trimTrailingSlash issuer := by
        intro m hm
        exact hmis m (by simpa [successDocs] using hm)
      simp only [discoverAuthServerMetadataLoop]
      rw [ih hmis' mismatched]
      cases mismatched with
      | none => simp [firstValidOrFail, firstValidMetadata]
      | some m0 => rfl
    | success m =>
      have hmis' : ∀ m' ∈ successDocs rest, validAsMetadata m' = true →
          trimTrailingSlash (m'.issuer.getD "") ≠ trimTrailingSlash issuer := by
        intro m' hm'
        exact hmis m' (by simp [successDocs, hm'])
      simp only [discoverAuthServerMetadataLoop]
      by_cases hv : validAsMetadata m = true
      · have hne : trimTrailingSlash (m.issuer.getD "") ≠ trimTrailingSlash issuer :=
          hmis m (by simp [successDocs]) hv
        rw [if_pos hv, if_neg (fun h => hne h.symm)]
        cases mismatched with
        | none =>
          rw [ih hmis' (some m)]
          simp [firstValidOrFail, firstValidMetadata, hv]
        | some m0 =>
          rw [ih hmis' (some m0)]
      · rw [if_neg hv]
        rw [ih hmis' mismatched]
        cases mismatched with
        | none => simp [firstValidOrFail, firstValidMetadata, hv]
        | some m0 => rfl

/-- Claim C6: `discoverAuthServerMetadata` fails exactly when no
candidate URL yields structurally valid metadata; and when every
structurally valid document it sees has an issuer (trailing slash
trimmed) different from the requested one, it returns the first
structurally valid document in candidate-URL order. -/
theorem discoverAuthServerMetadata_mismatch_tolerance (issuer : String)
    (results : List FetchResult) :
    (discoverAuthServerMetadata issuer results =
        Except.error DiscoveryError.discoveryFailed ↔
      firstValidMetadata results = none) ∧
    ((∀ m ∈ successDocs results, validAsMetadata m = true →
        trimTrailingSlash (m.issuer.getD "") ≠ trimTrailingSlash issuer) →
      discoverAuthServerMetadata issuer results = firstValidOrFail results) := by
  constructor
  · have h := discoverLoop_error_iff issuer results none
    simpa [discoverAuthServerMetadata] using h
  · intro hmis
    have h := discoverLoop_all_mismatched issuer results hmis none
    simpa [discoverAuthServerMetadata] using h

/-- Witness for `discoverAuthServerMetadata_mismatch_tolerance`: the
first candidate URL fails, the second yields a structurally invalid
document, the third yields a valid document whose issuer
"https://auth.example.com/tenantA" differs from the requested
"https://auth.example.com"; discovery accepts that document. -/
theorem discoverAuthServerMetadata_mismatch_tolerance_witness :
    discoverAuthServerMetadata "https://auth.example.com"
        [FetchResult.fail,
         FetchResult.success ⟨some "x", some "a", none, none, none, none, none⟩,
         FetchResult.success ⟨some "https://auth.example.com/tenantA",
           some "https://auth.example.com/oauth2/authorize",
           some "https://auth.example.com/oauth2/token", none, none, none, none⟩] =
      Except.ok ⟨some "https://auth.example.com/tenantA",
        some "https://auth.example.com/oauth2/authorize",
        some "https://auth.example.com/oauth2/token", none, none, none, none⟩ := by
  have h := (discoverAuthServerMetadata_mismatch_tolerance "https://auth.example.com"
    [FetchResult.fail,
     FetchResult.success ⟨some "x", some "a", none, none, none, none, none⟩,
     FetchResult.success ⟨some "https://auth.example.com/tenantA",
       some "https://auth.example.com/oauth2/authorize",
       some "https://auth.example.com/oauth2/token", none, none, none, none⟩]).2
    (by decide)
  rw [h]
  rfl

/-! ## Authorization-URL scope resolution -/

theorem mapGet_scope_base (a b c d e f : String) (tail : List (String × String)) :
    mapGet ([("response_type", "code"), ("client_id", a), ("redirect_uri", b),
      ("state", c), ("code_challenge", d), ("code_challenge_method", e),
      ("resource", f)] ++ tail) "scope" = mapGet tail "scope" := by
  simp only [List.cons_append, List.nil_append, mapGet]
  rw [if_neg (by decide), if_neg (by decide), if_neg (by decide), if_neg (by decide),
    if_neg (by decide), if_neg (by decide), if_neg (by decide)]
  rfl

/-- Counterexample to claim C1: with explicitly configured request
scopes ["a"] and a 403-challenge scope string "b", the authorization URL
carries scope "b" — the challenge-derived scopes override the explicit
config scopes, while the claimed resolution order would put "a" first. -/
theorem initiateAuthFlow_scope_priority_counterexample :
    mapGet (initiateAuthFlowAuthUrlParams
        ⟨"I", "A", "T", none, none, none, none⟩ ⟨"R", ["I"], none⟩
        (some ["a"]) (some "b") "cid" "ru" "sv" "ch" "S256" "R") "scope" = some "b" ∧
    claimScopeParam (some ["a"]) (some "b") none = some "a" ∧
    some "b" ≠ some "a" := by
  refine ⟨?_, rfl, by decide⟩
  rfl

/-- Claim C1 (amended): the scope parameter of the authorization URL
built by `initiateAuthFlow` is resolved with a truthy challenge-scope
string first (overriding configured scopes), then the configured request
scopes, then the protected resource's advertised `scopes_supported`;
when the resolved list is absent or empty the URL falls back to the auth
server metadata's `scopes_supported`, and only when that too is absent
or empty does the URL carry no scope parameter. -/
theorem initiateAuthFlow_scope_resolution (authServer : AuthServerMetadata)
    (pr : ProtectedResourceMetadata) (configScopes : Option (List String))
    (challengedScopes : Option String)
    (clientId redirectUri stateVal codeChallenge codeChallengeMethod resourceUri : String) :
    mapGet (initiateAuthFlowAuthUrlParams authServer pr configScopes challengedScopes
        clientId redirectUri stateVal codeChallenge codeChallengeMethod resourceUri)
      "scope" =
      amendedScopeParam configScopes challengedScopes pr.scopes_supported
        authServer.scopes_supported := by
  unfold initiateAuthFlowAuthUrlParams buildAuthorizationUrlParams amendedScopeParam
  rw [mapGet_scope_base]
  cases hsc : initiateAuthFlowScopes configScopes challengedScopes pr.scopes_supported with
  | none =>
    cases has : authServer.scopes_supported with
    | none => rfl
    | some s =>
      by_cases hl : 0 < s.length
      · simp [hl, mapGet]
      · simp [hl, mapGet]
  | some l =>
    by_cases hl : 0 < l.length
    · simp [hl, mapGet]
    · cases has : authServer.scopes_supported with
      | none => simp [hl, mapGet]
      | some s =>
        by_cases hs : 0 < s.length
        · simp [hl, hs, mapGet]
        · simp [hl, hs, mapGet]

end McpOAuth
